import Mathlib

/-!
Shallow embedding of the e-commerce backend (`main.py`, `schemas.py`).

Conventions of the embedding:
* Store-native ObjectIds are modelled as abstract `String` keys (every id that
  reaches a handler in a reachable state is a valid ObjectId string, so `oid`
  never fails on them).
* Python `float` prices and amounts are modelled as exact rationals `ℚ`;
  Python `round(x, 2)` is modelled as `round2` (round-half-to-even at two
  decimal places, Python's rounding mode).
* Python `int` is modelled as `Int` (unbounded).
* A raised `HTTPException(status, detail)` is modelled as `Except.error`
  carrying the status code and detail; a handler that raises returns no new
  store state, so an `.error` result leaves the store unchanged by
  construction.
* The document store (`database.py` is not part of the sources; the spec
  treats it as an external key-value collection store) is modelled as lists
  of documents per collection: `find_one` returns the first matching
  document, `update_one` rewrites the first matching document, and
  `create_document` appends the document and returns a fresh synthetic id.
* `os.urandom(4)` in `checkout` is modelled by passing the four random bytes
  as explicit `Fin 256` arguments.
* `sha256` and the `AUTH_SALT` environment value used by `hash_password` are
  modelled as parameters (`sha : String → String`, `salt : String`).
-/

namespace ECommerce

/-- Round a rational to the nearest integer, ties to even
(Python's `round` to zero places). -/
def roundHalfEven (x : ℚ) : ℤ :=
  let f : ℤ := ⌊x⌋
  if x - f < 1/2 then f
  else if 1/2 < x - f then f + 1
  else if f % 2 = 0 then f else f + 1

/-- Python `round(x, 2)`: round to two decimal places, ties to even. -/
def round2 (x : ℚ) : ℚ := (roundHalfEven (x * 100) : ℚ) / 100

/-- `schemas.Product` (the `_id` key is kept outside, in the collection). -/
structure Product where
  title : String
  description : Option String := none
  price : ℚ
  image_url : Option String := none
  category : Option String := none
  in_stock : Bool := true
deriving DecidableEq, Repr

/-- A cart line as stored in the `cart` collection: a raw
`{product_id, quantity}` document.  `quantity` is a plain Python `int`:
the merge/append path of `add_to_cart` writes it back without re-validating
the `CartItem` schema. -/
structure CartItem where
  product_id : String
  quantity : Int
deriving DecidableEq, Repr

/-- `schemas.Cart`: one document of the `cart` collection. -/
structure Cart where
  user_id : String
  items : List CartItem
deriving DecidableEq, Repr

/-- `schemas.OrderItem`: a frozen order line. -/
structure OrderItem where
  product_id : String
  title : String
  price : ℚ
  quantity : Int
  subtotal : ℚ
deriving DecidableEq, Repr

/-- `schemas.Order`: one document of the `order` collection. -/
structure Order where
  user_id : String
  items : List OrderItem
  amount : ℚ
  currency : String
  status : String
  payment_ref : String
deriving DecidableEq, Repr

/-- `schemas.User`: one document of the `user` collection. -/
structure UserDoc where
  name : String
  email : String
  password_hash : String
  is_active : Bool
  role : String
deriving DecidableEq, Repr

/-- The document store.  Modelled from the spec: the store is a generic
key-value collection store (`database.py` is an external adapter); each
collection is a list of documents in insertion order, `product` and `user`
documents carry their `_id` key. -/
structure DB where
  products : List (String × Product)
  carts : List Cart
  orders : List Order
  users : List (String × UserDoc)
deriving DecidableEq, Repr

/-- An `HTTPException(status_code, detail)` raised by a handler. -/
structure HErr where
  status_code : Nat
  detail : String
deriving DecidableEq, Repr

/-- `db["product"].find_one({"_id": oid(pid)})`. -/
def findProduct (db : DB) (product_id : String) : Option Product :=
  db.products.lookup product_id

/-- `db["cart"].find_one({"user_id": uid})`: first matching document. -/
def findCart (db : DB) (user_id : String) : Option Cart :=
  db.carts.find? (fun c => c.user_id == user_id)

/-- `db["cart"].update_one({...}, {"$set": {"items": its}})`: rewrite the
`items` field of the first cart matching `user_id`. -/
def setCartItems : List Cart → String → List CartItem → List Cart
  | [], _, _ => []
  | c :: cs, uid, its =>
    if c.user_id == uid then { c with items := its } :: cs
    else c :: setCartItems cs uid its

/-- `add_to_cart` (`POST /cart/add`, main.py lines 135-157).  The request
model `AddToCartRequest` declares `quantity: int` with no lower bound, so any
integer reaches the handler.  Creating a brand-new cart goes through the
`Cart`/`CartItem` pydantic schemas, whose `ge=1` constraint rejects a
quantity below 1 (an uncaught `ValidationError`, a 500); the
existing-cart path updates raw dictionaries and performs no such check. -/
def add_to_cart (db : DB) (user_id product_id : String) (quantity : Int) :
    Except HErr DB :=
  match findProduct db product_id with
  | none => .error ⟨404, "Product not found"⟩
  | some _ =>
    match findCart db user_id with
    | none =>
      if quantity < 1 then .error ⟨500, "ValidationError"⟩
      else .ok { db with carts := db.carts ++ [⟨user_id, [⟨product_id, quantity⟩]⟩] }
    | some cart =>
      let newItems :=
        if cart.items.any (fun it => it.product_id == product_id) then
          cart.items.map (fun it =>
            if it.product_id == product_id then
              { it with quantity := it.quantity + quantity }
            else it)
        else cart.items ++ [⟨product_id, quantity⟩]
      .ok { db with carts := setCartItems db.carts user_id newItems }

/-- One enriched line of the `get_cart` response. -/
structure CartLine where
  product_id : String
  title : String
  price : ℚ
  quantity : Int
  image_url : Option String
  subtotal : ℚ
deriving DecidableEq, Repr

/-- The `get_cart` response `{items, total}`. -/
structure CartView where
  items : List CartLine
  total : ℚ
deriving DecidableEq, Repr

/-- The loop body of `get_cart` (main.py lines 167-179): skip an item whose
product no longer resolves, else append the enriched line and accumulate the
running total. -/
def enrichStep (db : DB) (acc : List CartLine × ℚ) (it : CartItem) :
    List CartLine × ℚ :=
  match findProduct db it.product_id with
  | none => acc
  | some prod =>
    let subtotal := prod.price * (it.quantity : ℚ)
    (acc.1 ++ [⟨it.product_id, prod.title, prod.price, it.quantity,
                prod.image_url, subtotal⟩],
     acc.2 + subtotal)

/-- `get_cart` (`GET /cart/{user_id}`, main.py lines 159-180). -/
def get_cart (db : DB) (user_id : String) : CartView :=
  match findCart db user_id with
  | none => ⟨[], 0⟩
  | some cart =>
    let r := cart.items.foldl (enrichStep db) ([], 0)
    ⟨r.1, round2 r.2⟩

/-- The order-item building loop of `checkout` (main.py lines 192-206):
left-to-right over the cart items, appending a frozen `OrderItem` and
accumulating the running amount; aborts on the first unresolvable product. -/
def buildOrder (db : DB) : List OrderItem × ℚ → List CartItem →
    Except HErr (List OrderItem × ℚ)
  | acc, [] => .ok acc
  | acc, it :: rest =>
    match findProduct db it.product_id with
    | none => .error ⟨400, "Invalid product in cart"⟩
    | some prod =>
      let subtotal := prod.price * (it.quantity : ℚ)
      buildOrder db
        (acc.1 ++ [⟨it.product_id, prod.title, prod.price, it.quantity, subtotal⟩],
         acc.2 + subtotal)
        rest

/-- One hex digit of `bytes.hex().upper()`. -/
def hexDigitUpper : Nat → Char
  | 0 => '0' | 1 => '1' | 2 => '2' | 3 => '3' | 4 => '4'
  | 5 => '5' | 6 => '6' | 7 => '7' | 8 => '8' | 9 => '9'
  | 10 => 'A' | 11 => 'B' | 12 => 'C' | 13 => 'D' | 14 => 'E'
  | _ => 'F'

/-- `bytes([b]).hex().upper()` for a single byte. -/
def byteHexUpper (b : Fin 256) : String :=
  String.mk [hexDigitUpper (b.val / 16), hexDigitUpper (b.val % 16)]

/-- `os.urandom(4).hex().upper()`: the four random bytes are explicit. -/
def hex4Upper (b0 b1 b2 b3 : Fin 256) : String :=
  byteHexUpper b0 ++ byteHexUpper b1 ++ byteHexUpper b2 ++ byteHexUpper b3

/-- The `checkout` success response `{order_id, amount, currency, payment_ref}`
(the synthetic `order_id` is the index of the new order document). -/
structure CheckoutResp where
  order_id : String
  amount : ℚ
  currency : String
  payment_ref : String
deriving DecidableEq, Repr

/-- `checkout` (`POST /checkout`, main.py lines 186-224).  The four bytes of
`os.urandom(4)` are passed in as `b0 b1 b2 b3`.  `create_document` is
modelled from the spec as appending the order document and returning a fresh
id.  On success the new store state and the response are returned; a raised
error leaves the store untouched. -/
def checkout (db : DB) (user_id : String) (b0 b1 b2 b3 : Fin 256) :
    Except HErr (DB × CheckoutResp) :=
  match findCart db user_id with
  | none => .error ⟨400, "Cart is empty"⟩
  | some cart =>
    if cart.items.isEmpty then .error ⟨400, "Cart is empty"⟩
    else
      match buildOrder db ([], 0) cart.items with
      | .error e => .error e
      | .ok (items, amt) =>
        let amount := round2 amt
        let payment_ref := "PAY-" ++ hex4Upper b0 b1 b2 b3
        let order : Order := ⟨user_id, items, amount, "usd", "paid", payment_ref⟩
        let order_id := "order" ++ toString db.orders.length
        let db1 : DB := { db with orders := db.orders ++ [order] }
        let db2 : DB := { db1 with carts := setCartItems db1.carts user_id [] }
        .ok (db2, ⟨order_id, amount, "usd", payment_ref⟩)

/-- `hash_password` (main.py lines 90-91): `sha256(pw + AUTH_SALT).hexdigest()`
with `sha` and the salt as parameters. -/
def hash_password (sha : String → String) (salt : String) (pw : String) : String :=
  sha (pw ++ salt)

/-- The `AuthResponse` model of the auth endpoints. -/
structure AuthResponse where
  user_id : String
  name : String
  email : String
  token : String
deriving DecidableEq, Repr

/-- `signup` (`POST /auth/signup`, main.py lines 93-107).  `create_document`
is modelled from the spec as appending the user document under a fresh id. -/
def signup (sha : String → String) (salt : String) (db : DB)
    (name email password : String) : Except HErr (DB × AuthResponse) :=
  match db.users.find? (fun u => u.2.email == email) with
  | some _ => .error ⟨400, "Email already registered"⟩
  | none =>
    let user : UserDoc := ⟨name, email, hash_password sha salt password, true, "user"⟩
    let user_id := "user" ++ toString db.users.length
    let token := hash_password sha salt (email ++ ":" ++ password)
    .ok ({ db with users := db.users ++ [(user_id, user)] },
         ⟨user_id, name, email, token⟩)

/-- `signin` (`POST /auth/signin`, main.py lines 109-115). -/
def signin (sha : String → String) (salt : String) (db : DB)
    (email password : String) : Except HErr AuthResponse :=
  match db.users.find? (fun u => u.2.email == email) with
  | none => .error ⟨401, "Invalid credentials"⟩
  | some (uid, u) =>
    if u.password_hash == hash_password sha salt password then
      .ok ⟨uid, u.name, u.email, hash_password sha salt (email ++ ":" ++ password)⟩
    else .error ⟨401, "Invalid credentials"⟩

/-! ## Derived observations used by the claims -/

/-- The cart items currently stored for a user (empty when no cart exists). -/
def userItems (db : DB) (user_id : String) : List CartItem :=
  (findCart db user_id).elim [] Cart.items

/-- The merge step of `add_to_cart` on an items list: increment the matching
entries in place, or append a new raw `{product_id, quantity}` entry. -/
def addItemMerge (items : List CartItem) (product_id : String) (quantity : Int) :
    List CartItem :=
  if items.any (fun it => it.product_id == product_id) then
    items.map (fun it =>
      if it.product_id == product_id then
        { it with quantity := it.quantity + quantity }
      else it)
  else items ++ [⟨product_id, quantity⟩]

/-- Run a sequence of `add_to_cart` calls for one user, stopping at the first
error. -/
def runAdds (user_id : String) : DB → List (String × Int) → Except HErr DB
  | db, [] => .ok db
  | db, (pid, q) :: rest =>
    match add_to_cart db user_id pid q with
    | .error e => .error e
    | .ok db' => runAdds user_id db' rest

/-- Total quantity stored for one `product_id` in an items list. -/
def qtySum : List CartItem → String → Int
  | [], _ => 0
  | it :: rest, pid => (if it.product_id == pid then it.quantity else 0) + qtySum rest pid

/-- Total quantity submitted for one `product_id` across a request sequence. -/
def submittedSum : List (String × Int) → String → Int
  | [], _ => 0
  | (p, q) :: rest, pid => (if p == pid then q else 0) + submittedSum rest pid

/-- Sum over cart items of (current catalog price × quantity); an item whose
product does not resolve contributes 0 (the claims only use this when every
item resolves). -/
def cartTotalQ (db : DB) (items : List CartItem) : ℚ :=
  (items.map (fun it =>
    (findProduct db it.product_id).elim 0 (fun p => p.price * (it.quantity : ℚ)))).sum

/-- Whether a character is a hexadecimal digit. -/
def isHexDigitChar (c : Char) : Bool :=
  c.isDigit || ('A' ≤ c && c ≤ 'F') || ('a' ≤ c && c ≤ 'f')

/-- `s` has the shape `PAY-` followed by 8 hexadecimal characters. -/
def isPayRef (s : String) : Prop :=
  ∃ t : String, s = "PAY-" ++ t ∧ t.length = 8 ∧ t.data.all isHexDigitChar = true

/-- The enrichment of one cart item against the current catalog, as performed
by `get_cart`: `none` when the product no longer resolves. -/
def cartLineOf (db : DB) (it : CartItem) : Option CartLine :=
  (findProduct db it.product_id).map fun prod =>
    ⟨it.product_id, prod.title, prod.price, it.quantity, prod.image_url,
     prod.price * (it.quantity : ℚ)⟩

/-- The deterministic auth token both `signup` and `signin` compute. -/
def authToken (sha : String → String) (salt email password : String) : String :=
  hash_password sha salt (email ++ ":" ++ password)

/-! ## Helper lemmas -/

theorem find?_append_of_none {α : Type} (p : α → Bool) (l₁ l₂ : List α)
    (h : l₁.find? p = none) : (l₁ ++ l₂).find? p = l₂.find? p := by
  induction l₁ with
  | nil => simp
  | cons a l ih =>
    rw [List.find?_cons] at h
    rw [List.cons_append, List.find?_cons]
    cases hp : p a with
    | true => simp [hp] at h
    | false => simp only [hp] at h ⊢; exact ih h

theorem find?_setCartItems (cs : List Cart) (uid : String) (its : List CartItem)
    (c : Cart) (h : cs.find? (fun c => c.user_id == uid) = some c) :
    (setCartItems cs uid its).find? (fun c => c.user_id == uid) =
      some { c with items := its } := by
  induction cs with
  | nil => simp at h
  | cons a l ih =>
    rw [List.find?_cons] at h
    cases hp : (a.user_id == uid) with
    | true =>
      simp only [hp] at h
      cases h
      simp [setCartItems, hp, List.find?_cons]
    | false =>
      simp only [hp] at h
      simp only [setCartItems, hp, Bool.false_eq_true, if_false, List.find?_cons]
      exact ih h

theorem setCartItems_of_none (cs : List Cart) (uid : String) (its : List CartItem)
    (h : cs.find? (fun c => c.user_id == uid) = none) :
    setCartItems cs uid its = cs := by
  induction cs with
  | nil => rfl
  | cons a l ih =>
    rw [List.find?_cons] at h
    cases hp : (a.user_id == uid) with
    | true => simp [hp] at h
    | false =>
      simp only [hp] at h
      simp [setCartItems, hp, ih h]

theorem buildOrder_ok_spec (db : DB) (items : List CartItem) :
    ∀ (accL : List OrderItem) (accA : ℚ) (L : List OrderItem) (A : ℚ),
    buildOrder db (accL, accA) items = Except.ok (L, A) →
    ∃ M : List OrderItem,
      L = accL ++ M ∧
      A = accA + (M.map OrderItem.subtotal).sum ∧
      (M.map OrderItem.subtotal).sum = cartTotalQ db items ∧
      (∀ oi ∈ M, oi.subtotal = oi.price * (oi.quantity : ℚ)) ∧
      (∀ it ∈ items, (findProduct db it.product_id).isSome = true) := by
  induction items with
  | nil =>
    intro accL accA L A h
    rw [buildOrder] at h
    simp only [Except.ok.injEq, Prod.mk.injEq] at h
    refine ⟨[], by simp [h.1.symm], by simp [h.2.symm], by simp [cartTotalQ], by simp, by simp⟩
  | cons it rest ih =>
    intro accL accA L A h
    rw [buildOrder] at h
    cases hp : findProduct db it.product_id with
    | none => rw [hp] at h; cases h
    | some prod =>
      rw [hp] at h
      obtain ⟨M, hL, hA, hsum, hsub, hres⟩ := ih _ _ _ _ h
      refine ⟨⟨it.product_id, prod.title, prod.price, it.quantity,
               prod.price * (it.quantity : ℚ)⟩ :: M, ?_, ?_, ?_, ?_, ?_⟩
      · rw [hL, List.append_assoc, List.singleton_append]
      · rw [hA]; simp [List.map_cons]; ring
      · simp only [List.map_cons, List.sum_cons, cartTotalQ, hp, Option.elim]
        rw [hsum]; rfl
      · intro oi hoi
        rcases List.mem_cons.mp hoi with rfl | hM
        · rfl
        · exact hsub oi hM
      · intro x hx
        rcases List.mem_cons.mp hx with rfl | hr
        · rw [hp]; rfl
        · exact hres x hr

theorem buildOrder_error_of_missing (db : DB) (items : List CartItem)
    (h : ∃ it ∈ items, findProduct db it.product_id = none) :
    ∀ acc, buildOrder db acc items = Except.error ⟨400, "Invalid product in cart"⟩ := by
  induction items with
  | nil => simp at h
  | cons it rest ih =>
    intro acc
    obtain ⟨x, hx, hnone⟩ := h
    rw [buildOrder]
    cases hp : findProduct db it.product_id with
    | none => rfl
    | some prod =>
      rcases List.mem_cons.mp hx with rfl | hxr
      · rw [hp] at hnone; cases hnone
      · exact ih ⟨x, hxr, hnone⟩ _

theorem checkout_ok_spec (db : DB) (uid : String) (b0 b1 b2 b3 : Fin 256)
    (db' : DB) (resp : CheckoutResp)
    (h : checkout db uid b0 b1 b2 b3 = Except.ok (db', resp)) :
    ∃ (cart : Cart) (L : List OrderItem) (A : ℚ),
      findCart db uid = some cart ∧
      cart.items ≠ [] ∧
      buildOrder db ([], 0) cart.items = Except.ok (L, A) ∧
      db'.orders = db.orders ++
        [⟨uid, L, round2 A, "usd", "paid", "PAY-" ++ hex4Upper b0 b1 b2 b3⟩] ∧
      db'.carts = setCartItems db.carts uid [] ∧
      db'.products = db.products ∧
      resp = ⟨"order" ++ toString db.orders.length, round2 A, "usd",
              "PAY-" ++ hex4Upper b0 b1 b2 b3⟩ := by
  unfold checkout at h
  split at h
  · cases h
  next cart hc =>
    split at h
    · cases h
    next he =>
      split at h
      · cases h
      next L A hb =>
        simp only [Except.ok.injEq, Prod.mk.injEq] at h
        obtain ⟨hdb, hresp⟩ := h
        subst hdb
        subst hresp
        exact ⟨cart, L, A, hc, by simpa using he, hb, rfl, rfl, rfl, rfl⟩

theorem isHex_hexDigitUpper (n : Nat) : isHexDigitChar (hexDigitUpper n) = true := by
  unfold hexDigitUpper
  split <;> decide

theorem hex4Upper_data (b0 b1 b2 b3 : Fin 256) :
    (hex4Upper b0 b1 b2 b3).data =
      [hexDigitUpper (b0.val / 16), hexDigitUpper (b0.val % 16),
       hexDigitUpper (b1.val / 16), hexDigitUpper (b1.val % 16),
       hexDigitUpper (b2.val / 16), hexDigitUpper (b2.val % 16),
       hexDigitUpper (b3.val / 16), hexDigitUpper (b3.val % 16)] := rfl

theorem isPayRef_payRef (b0 b1 b2 b3 : Fin 256) :
    isPayRef ("PAY-" ++ hex4Upper b0 b1 b2 b3) := by
  refine ⟨hex4Upper b0 b1 b2 b3, rfl, ?_, ?_⟩
  · show (hex4Upper b0 b1 b2 b3).data.length = 8
    rw [hex4Upper_data]
    rfl
  · rw [List.all_eq_true]
    intro c hc
    rw [hex4Upper_data] at hc
    simp only [List.mem_cons, List.not_mem_nil, or_false] at hc
    rcases hc with rfl | rfl | rfl | rfl | rfl | rfl | rfl | rfl <;>
      exact isHex_hexDigitUpper _

theorem checkout_error_of_no_items (db : DB) (uid : String) (b0 b1 b2 b3 : Fin 256)
    (h : userItems db uid = []) :
    checkout db uid b0 b1 b2 b3 = Except.error ⟨400, "Cart is empty"⟩ := by
  unfold userItems at h
  unfold checkout
  cases hc : findCart db uid with
  | none => rfl
  | some cart =>
    rw [hc] at h
    simp only [Option.elim] at h
    simp [h]

/-! ## Concrete fixtures for witnesses and counterexamples -/

def prodA : Product := { title := "t", price := 10 }

def dbW : DB := ⟨[("p1", prodA)], [⟨"u1", [⟨"p1", 5⟩]⟩], [], []⟩

def orderW : Order := ⟨"u1", [⟨"p1", "t", 10, 5, 50⟩], 50, "usd", "paid", "PAY-00000000"⟩

def dbW1 : DB := ⟨[("p1", prodA)], [⟨"u1", []⟩], [orderW], []⟩

def respW : CheckoutResp := ⟨"order0", 50, "usd", "PAY-00000000"⟩

def prodC5 : Product := { title := "t", price := 333/1000 }

def dbC5 : DB := ⟨[("p1", prodC5)], [⟨"u1", [⟨"p1", 1⟩]⟩], [], []⟩

def orderC5 : Order :=
  ⟨"u1", [⟨"p1", "t", 333/1000, 1, 333/1000⟩], 33/100, "usd", "paid", "PAY-00000000"⟩

def dbC5ok : DB := ⟨[("p1", prodC5)], [⟨"u1", []⟩], [orderC5], []⟩

def respC5 : CheckoutResp := ⟨"order0", 33/100, "usd", "PAY-00000000"⟩

/-! ## Claim theorems -/

/-- C1: every successful `checkout(user_id)` creates exactly one Order whose
`amount` is `round(Σ current price × quantity, 2)` over the user's cart items,
whose `status` is `"paid"`, whose `payment_ref` is `PAY-` followed by 8 hex
characters, and afterwards the user's Cart has `items = []` (every cart item
resolved in the catalog, so the price sum is over the current products). -/
theorem checkout_success_contract (db : DB) (uid : String) (b0 b1 b2 b3 : Fin 256)
    (db' : DB) (resp : CheckoutResp)
    (h : checkout db uid b0 b1 b2 b3 = Except.ok (db', resp)) :
    ∃ (cart : Cart) (order : Order),
      findCart db uid = some cart ∧
      db'.orders = db.orders ++ [order] ∧
      order.amount = round2 (cartTotalQ db cart.items) ∧
      order.status = "paid" ∧
      isPayRef order.payment_ref ∧
      (∀ it ∈ cart.items, (findProduct db it.product_id).isSome = true) ∧
      ∃ cart' : Cart, findCart db' uid = some cart' ∧ cart'.items = [] := by
  obtain ⟨cart, L, A, hc, hne, hb, hord, hcarts, hprods, hresp⟩ :=
    checkout_ok_spec db uid b0 b1 b2 b3 db' resp h
  obtain ⟨M, hL, hA, hsum, hsub, hres⟩ := buildOrder_ok_spec db cart.items [] 0 L A hb
  refine ⟨cart, _, hc, hord, ?_, rfl, isPayRef_payRef b0 b1 b2 b3, hres,
          { cart with items := [] }, ?_, rfl⟩
  · show round2 A = round2 (cartTotalQ db cart.items)
    rw [hA, hsum, zero_add]
  · show (db'.carts).find? (fun c => c.user_id == uid) = some { cart with items := [] }
    rw [hcarts]
    exact find?_setCartItems _ _ _ _ hc

/-- C1 witness: the contract instantiated on a one-product, one-cart store. -/
theorem checkout_success_contract_witness :
    checkout dbW "u1" 0 0 0 0 = Except.ok (dbW1, respW) ∧
    (∃ (cart : Cart) (order : Order),
      findCart dbW "u1" = some cart ∧
      dbW1.orders = dbW.orders ++ [order] ∧
      order.amount = round2 (cartTotalQ dbW cart.items) ∧
      order.status = "paid" ∧
      isPayRef order.payment_ref ∧
      (∀ it ∈ cart.items, (findProduct dbW it.product_id).isSome = true) ∧
      ∃ cart' : Cart, findCart dbW1 "u1" = some cart' ∧ cart'.items = []) := by
  have h : checkout dbW "u1" 0 0 0 0 = Except.ok (dbW1, respW) := by
    norm_num [checkout, findCart, findProduct, buildOrder, dbW, dbW1, respW, prodA,
              orderW, setCartItems, round2, roundHalfEven, hex4Upper, byteHexUpper,
              hexDigitUpper]
    exact ⟨rfl, rfl, rfl⟩
  exact ⟨h, checkout_success_contract dbW "u1" 0 0 0 0 dbW1 respW h⟩

/-- C3: when the user's cart exists and is non-empty but some cart item's
product no longer resolves, `checkout` raises 400 "Invalid product in cart";
a raised error returns no new store state, so no Order is created and the
cart's items are untouched (all-or-nothing abort). -/
theorem checkout_missing_product_aborts (db : DB) (uid : String)
    (b0 b1 b2 b3 : Fin 256) (cart : Cart)
    (hc : findCart db uid = some cart) (hne : cart.items ≠ [])
    (hmiss : ∃ it ∈ cart.items, findProduct db it.product_id = none) :
    checkout db uid b0 b1 b2 b3 = Except.error ⟨400, "Invalid product in cart"⟩ := by
  have he : cart.items.isEmpty = false := by simp [hne]
  unfold checkout
  rw [hc]
  simp only [he, Bool.false_eq_true, if_false,
             buildOrder_error_of_missing db cart.items hmiss ([], 0)]

/-- C3 witness: a cart referencing a product absent from the catalog. -/
theorem checkout_missing_product_aborts_witness :
    findCart ⟨[], [⟨"u1", [⟨"p1", 1⟩]⟩], [], []⟩ "u1" = some ⟨"u1", [⟨"p1", 1⟩]⟩ ∧
    checkout ⟨[], [⟨"u1", [⟨"p1", 1⟩]⟩], [], []⟩ "u1" 0 0 0 0 =
      Except.error ⟨400, "Invalid product in cart"⟩ :=
  ⟨rfl, checkout_missing_product_aborts _ "u1" 0 0 0 0 ⟨"u1", [⟨"p1", 1⟩]⟩ rfl
    (by simp) ⟨⟨"p1", 1⟩, by simp, rfl⟩⟩

/-- C4: `checkout` on an absent or empty cart raises 400 "Cart is empty"
(raising returns no new store state, so no Order is created and nothing
changes); consequently a second checkout right after a successful one for the
same user fails the same way, the cart having been emptied. -/
theorem checkout_empty_cart_fails :
    (∀ (db : DB) (uid : String) (b0 b1 b2 b3 : Fin 256),
      (findCart db uid = none ∨ ∃ cart, findCart db uid = some cart ∧ cart.items = []) →
      checkout db uid b0 b1 b2 b3 = Except.error ⟨400, "Cart is empty"⟩) ∧
    (∀ (db : DB) (uid : String) (b0 b1 b2 b3 c0 c1 c2 c3 : Fin 256)
       (db' : DB) (resp : CheckoutResp),
      checkout db uid b0 b1 b2 b3 = Except.ok (db', resp) →
      checkout db' uid c0 c1 c2 c3 = Except.error ⟨400, "Cart is empty"⟩) := by
  constructor
  · intro db uid b0 b1 b2 b3 h
    apply checkout_error_of_no_items
    unfold userItems
    rcases h with h | ⟨cart, hc, hitems⟩
    · rw [h]; rfl
    · rw [hc]; simpa using hitems
  · intro db uid b0 b1 b2 b3 c0 c1 c2 c3 db' resp h
    obtain ⟨cart, L, A, hc, _, _, _, hcarts, _, _⟩ :=
      checkout_ok_spec db uid b0 b1 b2 b3 db' resp h
    apply checkout_error_of_no_items
    unfold userItems
    have : (db'.carts).find? (fun c => c.user_id == uid) = some { cart with items := [] } := by
      rw [hcarts]; exact find?_setCartItems _ _ _ _ hc
    show ((db'.carts).find? (fun c => c.user_id == uid)).elim [] Cart.items = []
    rw [this]
    rfl

/-- C4 witness: both parts instantiated — an absent cart, and a second
checkout right after a successful one. -/
theorem checkout_empty_cart_fails_witness :
    (findCart (⟨[], [], [], []⟩ : DB) "u1" = none ∨
      ∃ cart, findCart (⟨[], [], [], []⟩ : DB) "u1" = some cart ∧ cart.items = []) ∧
    checkout (⟨[], [], [], []⟩ : DB) "u1" 0 0 0 0 =
      Except.error ⟨400, "Cart is empty"⟩ ∧
    checkout dbW "u1" 0 0 0 0 = Except.ok (dbW1, respW) ∧
    checkout dbW1 "u1" 1 2 3 4 = Except.error ⟨400, "Cart is empty"⟩ := by
  have h : checkout dbW "u1" 0 0 0 0 = Except.ok (dbW1, respW) := by
    norm_num [checkout, findCart, findProduct, buildOrder, dbW, dbW1, respW, prodA,
              orderW, setCartItems, round2, roundHalfEven, hex4Upper, byteHexUpper,
              hexDigitUpper]
    exact ⟨rfl, rfl, rfl⟩
  exact ⟨Or.inl rfl,
    checkout_empty_cart_fails.1 ⟨[], [], [], []⟩ "u1" 0 0 0 0 (Or.inl rfl),
    h,
    checkout_empty_cart_fails.2 dbW "u1" 0 0 0 0 1 2 3 4 dbW1 respW h⟩

/-- C5 (amended): for every Order created by `checkout`, `amount` equals the
sum of its items' `subtotal` fields rounded to 2 decimal places, where each
item's `subtotal` is its price times its quantity (stored unrounded). -/
theorem order_amount_rounded_subtotal_sum (db : DB) (uid : String)
    (b0 b1 b2 b3 : Fin 256) (db' : DB) (resp : CheckoutResp)
    (h : checkout db uid b0 b1 b2 b3 = Except.ok (db', resp)) :
    ∃ order : Order,
      db'.orders = db.orders ++ [order] ∧
      order.amount = round2 ((order.items.map OrderItem.subtotal).sum) ∧
      ∀ oi ∈ order.items, oi.subtotal = oi.price * (oi.quantity : ℚ) := by
  obtain ⟨cart, L, A, hc, hne, hb, hord, hcarts, hprods, hresp⟩ :=
    checkout_ok_spec db uid b0 b1 b2 b3 db' resp h
  obtain ⟨M, hL, hA, hsum, hsub, hres⟩ := buildOrder_ok_spec db cart.items [] 0 L A hb
  rw [List.nil_append] at hL
  subst hL
  refine ⟨⟨uid, L, round2 A, "usd", "paid", "PAY-" ++ hex4Upper b0 b1 b2 b3⟩,
          hord, ?_, hsub⟩
  show round2 A = round2 ((L.map OrderItem.subtotal).sum)
  rw [hA, zero_add]

/-- C5 (amended) witness: the rounded-sum contract on the fractional-price
store. -/
theorem order_amount_rounded_subtotal_sum_witness :
    checkout dbC5 "u1" 0 0 0 0 = Except.ok (dbC5ok, respC5) ∧
    (∃ order : Order,
      dbC5ok.orders = dbC5.orders ++ [order] ∧
      order.amount = round2 ((order.items.map OrderItem.subtotal).sum) ∧
      ∀ oi ∈ order.items, oi.subtotal = oi.price * (oi.quantity : ℚ)) := by
  have h : checkout dbC5 "u1" 0 0 0 0 = Except.ok (dbC5ok, respC5) := by
    norm_num [checkout, findCart, findProduct, buildOrder, dbC5, dbC5ok, respC5, prodC5,
              orderC5, setCartItems, round2, roundHalfEven, hex4Upper, byteHexUpper,
              hexDigitUpper]
    exact ⟨rfl, rfl, rfl⟩
  exact ⟨h, order_amount_rounded_subtotal_sum dbC5 "u1" 0 0 0 0 dbC5ok respC5 h⟩

/-- C5 counterexample: with a product priced 0.333 and quantity 1, the
created Order stores `subtotal = 0.333` (not rounded to 2 places) and
`amount = 0.33 ≠ 0.333` (the rounding happens on the sum, not per line), so
the claim as stated fails on both counts. -/
theorem order_amount_claim_counterexample :
    checkout dbC5 "u1" 0 0 0 0 = Except.ok (dbC5ok, respC5) ∧
    dbC5ok.orders = [orderC5] ∧
    orderC5.amount ≠ (orderC5.items.map OrderItem.subtotal).sum ∧
    ¬(∀ oi ∈ orderC5.items, oi.subtotal = round2 (oi.price * (oi.quantity : ℚ))) := by
  refine ⟨?_, rfl, ?_, ?_⟩
  · norm_num [checkout, findCart, findProduct, buildOrder, dbC5, dbC5ok, respC5, prodC5,
              orderC5, setCartItems, round2, roundHalfEven, hex4Upper, byteHexUpper,
              hexDigitUpper]
    exact ⟨rfl, rfl, rfl⟩
  · norm_num [orderC5]
  · intro hall
    have h := hall ⟨"p1", "t", 333/1000, 1, 333/1000⟩ (by simp [orderC5])
    norm_num [round2, roundHalfEven] at h

/-- C7: `add_to_cart` with a `product_id` that does not resolve in the
catalog raises 404 "Product not found" before touching the cart collection;
a raised error returns no new store state, so no cart is created or
modified. -/
theorem add_to_cart_product_not_found (db : DB) (uid pid : String) (q : Int)
    (h : findProduct db pid = none) :
    add_to_cart db uid pid q = Except.error ⟨404, "Product not found"⟩ := by
  unfold add_to_cart
  rw [h]

/-- C7 witness: adding a product that is not in the catalog. -/
theorem add_to_cart_product_not_found_witness :
    findProduct (⟨[], [], [], []⟩ : DB) "p1" = none ∧
    add_to_cart (⟨[], [], [], []⟩ : DB) "u1" "p1" 1 =
      Except.error ⟨404, "Product not found"⟩ :=
  ⟨rfl, add_to_cart_product_not_found ⟨[], [], [], []⟩ "u1" "p1" 1 rfl⟩

/-- C8: `get_cart` for a user with no cart document returns
`{items := [], total := 0}` and raises nothing. -/
theorem get_cart_absent_cart (db : DB) (uid : String)
    (h : findCart db uid = none) :
    get_cart db uid = ⟨[], 0⟩ := by
  unfold get_cart
  rw [h]

/-- C8 witness: `get_cart` on an empty store. -/
theorem get_cart_absent_cart_witness :
    findCart (⟨[], [], [], []⟩ : DB) "u1" = none ∧
    get_cart (⟨[], [], [], []⟩ : DB) "u1" = ⟨[], 0⟩ :=
  ⟨rfl, get_cart_absent_cart ⟨[], [], [], []⟩ "u1" rfl⟩

theorem foldl_enrichStep (db : DB) (items : List CartItem) :
    ∀ (accL : List CartLine) (accA : ℚ),
    items.foldl (enrichStep db) (accL, accA) =
      (accL ++ items.filterMap (cartLineOf db),
       accA + ((items.filterMap (cartLineOf db)).map
                 (fun l => l.price * (l.quantity : ℚ))).sum) := by
  induction items with
  | nil => intro accL accA; simp
  | cons it rest ih =>
    intro accL accA
    rw [List.foldl_cons]
    cases hp : findProduct db it.product_id with
    | none =>
      have hline : cartLineOf db it = none := by unfold cartLineOf; rw [hp]; rfl
      have hstep : enrichStep db (accL, accA) it = (accL, accA) := by
        unfold enrichStep; rw [hp]
      rw [hstep, ih, List.filterMap_cons, hline]
    | some prod =>
      have hline : cartLineOf db it =
          some ⟨it.product_id, prod.title, prod.price, it.quantity, prod.image_url,
                prod.price * (it.quantity : ℚ)⟩ := by
        unfold cartLineOf; rw [hp]; rfl
      have hstep : enrichStep db (accL, accA) it =
          (accL ++ [⟨it.product_id, prod.title, prod.price, it.quantity,
                     prod.image_url, prod.price * (it.quantity : ℚ)⟩],
           accA + prod.price * (it.quantity : ℚ)) := by
        unfold enrichStep; rw [hp]
      rw [hstep, ih, List.filterMap_cons, hline]
      simp only [List.append_assoc, List.singleton_append, List.map_cons, List.sum_cons,
                 Prod.mk.injEq, true_and]
      ring

theorem get_cart_some (db : DB) (uid : String) (cart : Cart)
    (h : findCart db uid = some cart) :
    get_cart db uid =
      ⟨(cart.items.foldl (enrichStep db) ([], 0)).1,
       round2 (cart.items.foldl (enrichStep db) ([], 0)).2⟩ := by
  unfold get_cart
  rw [h]

/-- C9: for an existing cart, `get_cart` returns one line per cart item whose
product still resolves, carrying the current product's title and price; an
item whose product vanished is silently dropped; and `total` is the sum of
price × quantity over the returned lines only, rounded to 2 decimal places. -/
theorem get_cart_existing_contract (db : DB) (uid : String) (cart : Cart)
    (h : findCart db uid = some cart) :
    (get_cart db uid).items = cart.items.filterMap (cartLineOf db) ∧
    (get_cart db uid).total =
      round2 (((cart.items.filterMap (cartLineOf db)).map
                (fun l => l.price * (l.quantity : ℚ))).sum) := by
  rw [get_cart_some db uid cart h, foldl_enrichStep db cart.items [] 0]
  exact ⟨by simp, by simp⟩

/-- C9 witness: a one-line cart joined against the current catalog. -/
theorem get_cart_existing_contract_witness :
    findCart dbW "u1" = some ⟨"u1", [⟨"p1", 5⟩]⟩ ∧
    (get_cart dbW "u1").items = ([⟨"p1", 5⟩] : List CartItem).filterMap (cartLineOf dbW) ∧
    (get_cart dbW "u1").total =
      round2 (((([⟨"p1", 5⟩] : List CartItem).filterMap (cartLineOf dbW)).map
                (fun l => l.price * (l.quantity : ℚ))).sum) :=
  ⟨rfl,
   (get_cart_existing_contract dbW "u1" ⟨"u1", [⟨"p1", 5⟩]⟩ rfl).1,
   (get_cart_existing_contract dbW "u1" ⟨"u1", [⟨"p1", 5⟩]⟩ rfl).2⟩

/-- The product ids of an items list, in order. -/
def pids (items : List CartItem) : List String := items.map CartItem.product_id

theorem qtySum_eq_zero_of_not_mem (items : List CartItem) (pid : String)
    (h : pid ∉ pids items) : qtySum items pid = 0 := by
  induction items with
  | nil => rfl
  | cons it rest ih =>
    simp only [pids, List.map_cons, List.mem_cons, not_or] at h
    have hne : (it.product_id == pid) = false := by
      simp [beq_eq_false_iff_ne]
      exact fun e => h.1 (e ▸ rfl)
    simp only [qtySum, hne, if_false]
    simpa using ih (by simpa [pids] using h.2)

theorem qtySum_append (l₁ l₂ : List CartItem) (pid : String) :
    qtySum (l₁ ++ l₂) pid = qtySum l₁ pid + qtySum l₂ pid := by
  induction l₁ with
  | nil => simp [qtySum]
  | cons it rest ih =>
    rw [List.cons_append]
    show (if (it.product_id == pid) = true then it.quantity else 0) +
        qtySum (rest ++ l₂) pid = _
    rw [ih]
    show _ = (if (it.product_id == pid) = true then it.quantity else 0) +
        qtySum rest pid + qtySum l₂ pid
    ring

theorem pids_bump (items : List CartItem) (pid : String) (q : Int) :
    pids (items.map (fun it =>
      if it.product_id == pid then { it with quantity := it.quantity + q } else it)) =
    pids items := by
  induction items with
  | nil => rfl
  | cons it rest ih =>
    simp only [pids, List.map_cons] at ih ⊢
    rw [ih]
    by_cases h : it.product_id == pid <;> simp [h]

theorem qtySum_bump (items : List CartItem) (pid : String) (q : Int) :
    qtySum (items.map (fun it =>
      if it.product_id == pid then { it with quantity := it.quantity + q } else it)) pid =
    qtySum items pid + q * (items.countP (fun it => it.product_id == pid)) := by
  induction items with
  | nil => simp [qtySum]
  | cons it rest ih =>
    by_cases h : (it.product_id == pid) = true
    · simp only [List.map_cons, qtySum, h, if_true, List.countP_cons, ih]
      push_cast
      ring
    · have hf : (it.product_id == pid) = false := eq_false_of_ne_true h
      simp only [List.map_cons, qtySum, hf, Bool.false_eq_true, if_false,
                 List.countP_cons, ih]
      ring_nf

theorem qtySum_bump_ne (items : List CartItem) (pid pid' : String) (q : Int)
    (hne : pid' ≠ pid) :
    qtySum (items.map (fun it =>
      if it.product_id == pid then { it with quantity := it.quantity + q } else it)) pid' =
    qtySum items pid' := by
  induction items with
  | nil => rfl
  | cons it rest ih =>
    by_cases h : (it.product_id == pid) = true
    · have hpid : it.product_id = pid := by simpa using h
      have h' : (it.product_id == pid') = false := by
        simp [beq_eq_false_iff_ne, hpid]
        exact fun e => hne (e ▸ rfl)
      simp only [List.map_cons, qtySum, h, if_true, ih]
      simp [h']
    · simp only [List.map_cons, qtySum, h, Bool.false_eq_true, if_false, ih]

theorem mem_pids_of_any (items : List CartItem) (pid : String)
    (h : items.any (fun it => it.product_id == pid) = true) : pid ∈ pids items := by
  rw [List.any_eq_true] at h
  obtain ⟨it, hit, he⟩ := h
  have : it.product_id = pid := by simpa using he
  exact this ▸ List.mem_map_of_mem CartItem.product_id hit

theorem any_of_mem_pids (items : List CartItem) (pid : String)
    (h : pid ∈ pids items) : items.any (fun it => it.product_id == pid) = true := by
  obtain ⟨it, hit, he⟩ := List.mem_map.mp h
  exact List.any_eq_true.mpr ⟨it, hit, by simp [he]⟩

theorem countP_eq_count_pids (items : List CartItem) (pid : String) :
    items.countP (fun it => it.product_id == pid) = (pids items).count pid := by
  unfold pids
  rw [List.count, List.countP_map]
  rfl

theorem nodup_addItemMerge (items : List CartItem) (pid : String) (q : Int)
    (h : (pids items).Nodup) : (pids (addItemMerge items pid q)).Nodup := by
  unfold addItemMerge
  split
  · rw [pids_bump]; exact h
  next hany =>
    have hnot : pid ∉ pids items := fun hm => hany (any_of_mem_pids items pid hm)
    have : pids (items ++ [⟨pid, q⟩]) = pids items ++ [pid] := by
      simp [pids]
    rw [this]
    simp [List.nodup_append, h, hnot]

theorem qtySum_addItemMerge (items : List CartItem) (pid : String) (q : Int)
    (h : (pids items).Nodup) :
    qtySum (addItemMerge items pid q) pid = qtySum items pid + q := by
  unfold addItemMerge
  split
  next hany =>
    rw [qtySum_bump]
    have hle : (pids items).count pid ≤ 1 := List.nodup_iff_count_le_one.mp h pid
    have hpos : 0 < (pids items).count pid :=
      List.count_pos_iff.mpr (mem_pids_of_any items pid hany)
    have h1 : items.countP (fun it => it.product_id == pid) = 1 := by
      rw [countP_eq_count_pids]; omega
    rw [h1]
    push_cast
    ring
  next hany =>
    rw [qtySum_append]
    have h0 : qtySum items pid = 0 :=
      qtySum_eq_zero_of_not_mem items pid (fun hm => hany (any_of_mem_pids items pid hm))
    simp [qtySum, h0]

theorem qtySum_addItemMerge_ne (items : List CartItem) (pid pid' : String) (q : Int)
    (hne : pid' ≠ pid) :
    qtySum (addItemMerge items pid q) pid' = qtySum items pid' := by
  unfold addItemMerge
  split
  · exact qtySum_bump_ne items pid pid' q hne
  · rw [qtySum_append]
    have : ((⟨pid, q⟩ : CartItem).product_id == pid') = false := by
      simp [beq_eq_false_iff_ne]
      exact fun e => hne (e ▸ rfl)
    simp [qtySum, this]

theorem qtySum_eq_quantity_of_mem (items : List CartItem)
    (h : (pids items).Nodup) (it : CartItem) (hit : it ∈ items) :
    qtySum items it.product_id = it.quantity := by
  induction items with
  | nil => simp at hit
  | cons a rest ih =>
    simp only [pids, List.map_cons, List.nodup_cons] at h
    rcases List.mem_cons.mp hit with rfl | hr
    · have h0 : qtySum rest it.product_id = 0 :=
        qtySum_eq_zero_of_not_mem rest it.product_id (by simpa [pids] using h.1)
      simp [qtySum, h0]
    · have hne : (a.product_id == it.product_id) = false := by
        simp only [beq_eq_false_iff_ne, ne_eq]
        intro he
        exact h.1 (he ▸ List.mem_map_of_mem CartItem.product_id hr)
      simp only [qtySum, hne, Bool.false_eq_true, if_false, zero_add]
      exact ih (by simpa [pids] using h.2) hr

theorem add_to_cart_ok (db : DB) (uid pid : String) (q : Int)
    (hres : (findProduct db pid).isSome = true) (hq : 1 ≤ q) :
    ∃ db', add_to_cart db uid pid q = Except.ok db' ∧
      db'.products = db.products ∧
      userItems db' uid = addItemMerge (userItems db uid) pid q := by
  cases hp : findProduct db pid with
  | none => rw [hp] at hres; simp at hres
  | some prod =>
    cases hc : findCart db uid with
    | none =>
      refine ⟨{ db with carts := db.carts ++ [⟨uid, [⟨pid, q⟩]⟩] }, ?_, rfl, ?_⟩
      · unfold add_to_cart
        rw [hp, hc]
        simp only [if_neg (not_lt.mpr hq)]
      · have hfind : findCart { db with carts := db.carts ++ [⟨uid, [⟨pid, q⟩]⟩] } uid =
            some ⟨uid, [⟨pid, q⟩]⟩ := by
          unfold findCart at hc ⊢
          rw [find?_append_of_none _ _ _ hc]
          simp [List.find?_cons]
        unfold userItems
        rw [hfind, hc]
        rfl
    | some cart =>
      refine ⟨{ db with carts := setCartItems db.carts uid (addItemMerge cart.items pid q) },
              ?_, rfl, ?_⟩
      · unfold add_to_cart
        rw [hp, hc]
        rfl
      · have hfind : findCart
            { db with carts := setCartItems db.carts uid (addItemMerge cart.items pid q) } uid =
            some { cart with items := addItemMerge cart.items pid q } := by
          unfold findCart at hc ⊢
          exact find?_setCartItems _ _ _ _ hc
        unfold userItems
        rw [hfind, hc]
        rfl

theorem runAdds_spec (uid : String) (reqs : List (String × Int)) :
    ∀ db : DB,
    (∀ r ∈ reqs, (findProduct db r.1).isSome = true) →
    (∀ r ∈ reqs, 1 ≤ r.2) →
    (pids (userItems db uid)).Nodup →
    ∃ db', runAdds uid db reqs = Except.ok db' ∧
      db'.products = db.products ∧
      (pids (userItems db' uid)).Nodup ∧
      ∀ pid, qtySum (userItems db' uid) pid =
        qtySum (userItems db uid) pid + submittedSum reqs pid := by
  induction reqs with
  | nil =>
    intro db _ _ hnd
    exact ⟨db, rfl, rfl, hnd, fun pid => by simp [submittedSum]⟩
  | cons r rest ih =>
    obtain ⟨pid, q⟩ := r
    intro db hres hq hnd
    obtain ⟨db1, hstep, hprods, hitems⟩ :=
      add_to_cart_ok db uid pid q (hres (pid, q) (List.mem_cons_self _ _))
        (hq (pid, q) (List.mem_cons_self _ _))
    have hnd1 : (pids (userItems db1 uid)).Nodup := by
      rw [hitems]; exact nodup_addItemMerge _ _ _ hnd
    have hres1 : ∀ r ∈ rest, (findProduct db1 r.1).isSome = true := by
      intro r hr
      have : findProduct db1 r.1 = findProduct db r.1 := by
        unfold findProduct; rw [hprods]
      rw [this]
      exact hres r (List.mem_cons_of_mem _ hr)
    obtain ⟨db', hrun, hprods', hnd', hsum⟩ :=
      ih db1 hres1 (fun r hr => hq r (List.mem_cons_of_mem _ hr)) hnd1
    refine ⟨db', ?_, hprods'.trans hprods, hnd', ?_⟩
    · unfold runAdds
      rw [hstep]
      exact hrun
    · intro p
      rw [hsum p, hitems]
      by_cases hp : p = pid
      · subst hp
        rw [qtySum_addItemMerge _ _ _ hnd]
        simp only [submittedSum, beq_self_eq_true, if_true]
        ring
      · rw [qtySum_addItemMerge_ne _ _ _ _ hp]
        have : ((pid == p) : Bool) = false := by
          simp [beq_eq_false_iff_ne]
          exact fun e => hp (e ▸ rfl)
        simp only [submittedSum, this, Bool.false_eq_true, if_false]
        ring

/-- C2: starting from a state with no cart for the user, any sequence of
`add_to_cart` calls whose product ids resolve in the catalog (quantities ≥ 1,
as the spec's `add_item(user_id, product_id, quantity≥1)` signature requires)
all succeed and leave a cart with at most one entry per `product_id`, each
entry's quantity being the sum of all quantities submitted for that
`product_id`. -/
theorem add_item_merge_invariant (db : DB) (uid : String)
    (reqs : List (String × Int))
    (hnocart : findCart db uid = none)
    (hres : ∀ r ∈ reqs, (findProduct db r.1).isSome = true)
    (hq : ∀ r ∈ reqs, 1 ≤ r.2) :
    ∃ db', runAdds uid db reqs = Except.ok db' ∧
      (pids (userItems db' uid)).Nodup ∧
      (∀ it ∈ userItems db' uid, it.quantity = submittedSum reqs it.product_id) ∧
      ∀ pid, qtySum (userItems db' uid) pid = submittedSum reqs pid := by
  have h0 : userItems db uid = [] := by unfold userItems; rw [hnocart]; rfl
  obtain ⟨db', hrun, _, hnd, hsum⟩ :=
    runAdds_spec uid reqs db hres hq (by rw [h0]; exact List.nodup_nil)
  have hsum' : ∀ pid, qtySum (userItems db' uid) pid = submittedSum reqs pid := by
    intro pid
    have := hsum pid
    rw [h0] at this
    simpa [qtySum] using this
  refine ⟨db', hrun, hnd, ?_, hsum'⟩
  intro it hit
  rw [← hsum' it.product_id]
  exact (qtySum_eq_quantity_of_mem _ hnd it hit).symm

/-- C2 witness: two adds of the same product (quantities 2 then 3) starting
from no cart. -/
theorem add_item_merge_invariant_witness :
    findCart (⟨[("p1", prodA)], [], [], []⟩ : DB) "u1" = none ∧
    (∃ db', runAdds "u1" ⟨[("p1", prodA)], [], [], []⟩ [("p1", 2), ("p1", 3)] =
        Except.ok db' ∧
      (pids (userItems db' "u1")).Nodup ∧
      (∀ it ∈ userItems db' "u1",
        it.quantity = submittedSum [("p1", 2), ("p1", 3)] it.product_id) ∧
      ∀ pid, qtySum (userItems db' "u1") pid =
        submittedSum [("p1", 2), ("p1", 3)] pid) :=
  ⟨rfl, add_item_merge_invariant ⟨[("p1", prodA)], [], [], []⟩ "u1" [("p1", 2), ("p1", 3)]
    rfl (by intro r hr; fin_cases hr <;> rfl) (by intro r hr; fin_cases hr <;> norm_num)⟩

def dbC6 : DB := ⟨[("p1", prodA)], [⟨"u1", [⟨"p1", 2⟩]⟩], [], []⟩

def dbC6ok : DB := ⟨[("p1", prodA)], [⟨"u1", [⟨"p1", -3⟩]⟩], [], []⟩

/-- C6 (code bug): `AddToCartRequest` puts no lower bound on `quantity`, and
the existing-cart update path of `add_to_cart` writes the incremented raw
dictionaries back without re-validating the `CartItem` schema (`ge=1`), so a
request with `quantity = -5` against a cart holding quantity 2 succeeds and
stores quantity `-3 < 1`, contradicting the schema's own `quantity ≥ 1`
declaration. -/
theorem cart_quantity_lower_bound_bug :
    add_to_cart dbC6 "u1" "p1" (-5) = Except.ok dbC6ok ∧
    userItems dbC6ok "u1" = [⟨"p1", -3⟩] ∧
    ¬(∀ it ∈ userItems dbC6ok "u1", 1 ≤ it.quantity) := by
  refine ⟨rfl, rfl, ?_⟩
  intro hall
  have h := hall ⟨"p1", -3⟩ (by
    show (⟨"p1", -3⟩ : CartItem) ∈ userItems dbC6ok "u1"
    have e : userItems dbC6ok "u1" = [⟨"p1", -3⟩] := rfl
    rw [e]
    exact List.mem_singleton_self _)
  exact absurd h (by decide)

/-- C10: the auth token is the deterministic digest
`hash_password(email + ":" + password)`: every successful `signup` and every
successful `signin` with the same credentials returns that same token value,
for any digest function and salt. -/
theorem auth_token_deterministic (sha : String → String)
    (salt email password : String) :
    (∀ (db : DB) (name : String) (p : DB × AuthResponse),
      signup sha salt db name email password = Except.ok p →
      p.2.token = authToken sha salt email password) ∧
    (∀ (db : DB) (r : AuthResponse),
      signin sha salt db email password = Except.ok r →
      r.token = authToken sha salt email password) := by
  constructor
  · intro db name p h
    unfold signup at h
    split at h
    · cases h
    · simp only [Except.ok.injEq] at h
      subst h
      rfl
  · intro db r h
    unfold signin at h
    split at h
    · cases h
    next uid u heq =>
      split at h
      · simp only [Except.ok.injEq] at h
        subst h
        rfl
      · cases h

def dbAuth1 : DB := ⟨[], [], [], [("user0", ⟨"n", "e", "pw", true, "user"⟩)]⟩

/-- C10 witness: with the digest instantiated as the identity function and an
empty salt, a concrete signup on an empty store and a concrete signin on the
resulting store both return the token `"e:pw"`. -/
theorem auth_token_deterministic_witness :
    signup (fun s => s) "" ⟨[], [], [], []⟩ "n" "e" "pw" =
      Except.ok (dbAuth1, ⟨"user0", "n", "e", "e:pw"⟩) ∧
    ((dbAuth1, (⟨"user0", "n", "e", "e:pw"⟩ : AuthResponse)) : DB × AuthResponse).2.token =
      authToken (fun s => s) "" "e" "pw" ∧
    signin (fun s => s) "" dbAuth1 "e" "pw" =
      Except.ok ⟨"user0", "n", "e", "e:pw"⟩ ∧
    (⟨"user0", "n", "e", "e:pw"⟩ : AuthResponse).token =
      authToken (fun s => s) "" "e" "pw" := by
  have h1 : signup (fun s => s) "" ⟨[], [], [], []⟩ "n" "e" "pw" =
      Except.ok (dbAuth1, ⟨"user0", "n", "e", "e:pw"⟩) := rfl
  have h2 : signin (fun s => s) "" dbAuth1 "e" "pw" =
      Except.ok ⟨"user0", "n", "e", "e:pw"⟩ := rfl
  exact ⟨h1,
    (auth_token_deterministic (fun s => s) "" "e" "pw").1 ⟨[], [], [], []⟩ "n" _ h1,
    h2,
    (auth_token_deterministic (fun s => s) "" "e" "pw").2 dbAuth1 _ h2⟩

end ECommerce
